import Mathlib

/-!
Verification of the polymarket-relay signing, trade-execution, credential
provisioning and admission-control logic.  Every definition below is a
shallow embedding of the corresponding JavaScript in `src/`:

* `src/utils/hmac.js`       — `hmacBase64`, `generateSignature`
* `src/server.js`           — `isB64`, `hmacB64`, `rowKey`, the
                              `/polymarket/auth-create`, `/polymarket/l2-sanity`
                              and `/polymarket/order` handlers
* `src/utils/polymarket.js` — `attemptTrade`, `executeTrade`,
                              `checkTradingStatus`
* `src/middleware/auth.js`  — `authenticateRequest`, `rateLimiter`

Bytes are `Nat` values below 256; machine words in SHA-256 are `Nat`
reduced modulo `2 ^ 32` by `wrap32`.  `crypto.createHmac("sha256", k)` is
embedded as a full executable HMAC-SHA256 (`hmacSha256`) with standard
base64 output (`b64EncodeBytes`), so signature equalities are equalities
of genuinely computed digests.
-/

namespace Relay

/-! ## Bytes and strings -/

/-- UTF-8 encoding of a single character (what `Buffer.from(s, "utf8")` and
`hmac.update(s, "utf8")` do to each code point). -/
def utf8Char (c : Char) : List Nat :=
  let n := c.toNat
  if n < 128 then [n]
  else if n < 2048 then [192 + n / 64, 128 + n % 64]
  else if n < 65536 then [224 + n / 4096, 128 + n / 64 % 64, 128 + n % 64]
  else [240 + n / 262144, 128 + n / 4096 % 64, 128 + n / 64 % 64, 128 + n % 64]

/-- UTF-8 bytes of a string. -/
def utf8Str (s : String) : List Nat :=
  s.toList.foldr (fun c acc => utf8Char c ++ acc) []

/-- JavaScript `String.prototype.toLowerCase` restricted to the ASCII
letters, which is all the relay ever lowercases (hex addresses). -/
def jsLower (s : String) : String := String.mk (s.toList.map Char.toLower)

/-! ## Base64 (standard alphabet, as used by `digest("base64")` and
`Buffer.from(s, "base64")`) -/

/-- The standard base64 alphabet, in value order. -/
def B64STD : List Char :=
  "ABCDEFGHIJKLMNOPQRSTUVWXYZabcdefghijklmnopqrstuvwxyz0123456789+/".toList

/-- Character for a 6-bit value. -/
def b64CharOfVal (n : Nat) : Char := B64STD.getD n 'A'

/-- Standard base64 encoding of a byte list, with `=` padding — the exact
behaviour of Node's `digest("base64")`. -/
def b64EncodeBytes : List Nat → List Char
  | [] => []
  | [a] => [b64CharOfVal (a / 4), b64CharOfVal (a % 4 * 16), '=', '=']
  | [a, b] =>
      [b64CharOfVal (a / 4), b64CharOfVal (a % 4 * 16 + b / 16),
       b64CharOfVal (b % 16 * 4), '=']
  | a :: b :: c :: rest =>
      b64CharOfVal (a / 4) :: b64CharOfVal (a % 4 * 16 + b / 16) ::
      b64CharOfVal (b % 16 * 4 + c / 64) :: b64CharOfVal (c % 64) ::
      b64EncodeBytes rest

/-- Base64 encoding as a string. -/
def b64EncodeStr (bs : List Nat) : String := String.mk (b64EncodeBytes bs)

/-- Membership in the base64 character class `[A-Za-z0-9+/]`. -/
def isB64Char (c : Char) : Bool := B64STD.contains c

/-- Strip at most two trailing `=` characters. -/
def stripPad (cs : List Char) : List Char :=
  match cs.reverse with
  | '=' :: '=' :: rest => rest.reverse
  | '=' :: rest => rest.reverse
  | _ => cs

/-- Six-bit value of a base64 character. -/
def b64Val (c : Char) : Nat := B64STD.indexOf c

/-- Bytes from a list of 6-bit values; a leftover group of two or three
values yields one or two bytes, a single leftover value yields none —
matching Node's lenient `Buffer.from(s, "base64")` on alphabet-only input. -/
def b64DecodeVals : List Nat → List Nat
  | a :: b :: c :: d :: rest =>
      (a * 4 + b / 16) :: (b % 16 * 16 + c / 4) :: (c % 4 * 64 + d) ::
      b64DecodeVals rest
  | [a, b] => [a * 4 + b / 16]
  | [a, b, c] => [a * 4 + b / 16, b % 16 * 16 + c / 4]
  | _ => []

/-- Node `Buffer.from(s, "base64")` on strings that pass `isB64`. -/
def b64Decode (s : String) : List Nat :=
  b64DecodeVals ((stripPad s.toList).map b64Val)

/-! ## SHA-256 (FIPS 180-4) and HMAC (RFC 2104) -/

/-- Reduce to a 32-bit word. -/
def wrap32 (n : Nat) : Nat := n % 4294967296

/-- Rotate a 32-bit word right by `n`. -/
def rotr32 (n x : Nat) : Nat := wrap32 ((x >>> n) ||| (x <<< (32 - n)))

def smallSigma0 (x : Nat) : Nat := rotr32 7 x ^^^ rotr32 18 x ^^^ (x >>> 3)
def smallSigma1 (x : Nat) : Nat := rotr32 17 x ^^^ rotr32 19 x ^^^ (x >>> 10)
def bigSigma0 (x : Nat) : Nat := rotr32 2 x ^^^ rotr32 13 x ^^^ rotr32 22 x
def bigSigma1 (x : Nat) : Nat := rotr32 6 x ^^^ rotr32 11 x ^^^ rotr32 25 x
def chFn (x y z : Nat) : Nat := (x &&& y) ^^^ ((x ^^^ 4294967295) &&& z)
def majFn (x y z : Nat) : Nat := (x &&& y) ^^^ (x &&& z) ^^^ (y &&& z)

/-- The 64 SHA-256 round constants. -/
def K256 : List Nat :=
  [1116352408, 1899447441, 3049323471, 3921009573, 961987163, 1508970993,
   2453635748, 2870763221, 3624381080, 310598401, 607225278, 1426881987,
   1925078388, 2162078206, 2614888103, 3248222580, 3835390401, 4022224774,
   264347078, 604807628, 770255983, 1249150122, 1555081692, 1996064986,
   2554220882, 2821834349, 2952996808, 3210313671, 3336571891, 3584528711,
   113926993, 338241895, 666307205, 773529912, 1294757372, 1396182291,
   1695183700, 1986661051, 2177026350, 2456956037, 2730485921, 2820302411,
   3259730800, 3345764771, 3516065817, 3600352804, 4094571909, 275423344,
   430227734, 506948616, 659060556, 883997877, 958139571, 1322822218,
   1537002063, 1747873779, 1955562222, 2024104815, 2227730452, 2361852424,
   2428436474, 2756734187, 3204031479, 3329325298]

/-- SHA-256 hash state: eight 32-bit words. -/
structure H8 where
  a : Nat
  b : Nat
  c : Nat
  d : Nat
  e : Nat
  f : Nat
  g : Nat
  h : Nat
deriving DecidableEq

/-- SHA-256 initial hash value. -/
def initH : H8 :=
  ⟨1779033703, 3144134277, 1013904242, 2773480762,
   1359893119, 2600822924, 528734635, 1541459225⟩

/-- Big-endian byte expansion of `n` on `k` bytes. -/
def beBytes : Nat → Nat → List Nat
  | 0, _ => []
  | k + 1, n => n / 256 ^ k % 256 :: beBytes k n

/-- Big-endian 32-bit words from bytes (`_` case unreachable on padded
input, whose length is a multiple of four). -/
def wordsOfBytes : List Nat → List Nat
  | b0 :: b1 :: b2 :: b3 :: rest =>
      (b0 * 16777216 + b1 * 65536 + b2 * 256 + b3) :: wordsOfBytes rest
  | _ => []

/-- Extend a 16-word schedule by `count` further words. -/
def msgSchedule (ws : List Nat) : Nat → List Nat
  | 0 => ws
  | k + 1 =>
      let n := ws.length
      let w := wrap32 (smallSigma1 (ws.getD (n - 2) 0) + ws.getD (n - 7) 0 +
                       smallSigma0 (ws.getD (n - 15) 0) + ws.getD (n - 16) 0)
      msgSchedule (ws ++ [w]) k

/-- One SHA-256 round, consuming a (round constant, schedule word) pair. -/
def sha256Round (st : H8) (p : Nat × Nat) : H8 :=
  let t1 := wrap32 (st.h + bigSigma1 st.e + chFn st.e st.f st.g + p.1 + p.2)
  let t2 := wrap32 (bigSigma0 st.a + majFn st.a st.b st.c)
  ⟨wrap32 (t1 + t2), st.a, st.b, st.c, wrap32 (st.d + t1), st.e, st.f, st.g⟩

/-- Process one 64-byte block. -/
def processBlock (st : H8) (block : List Nat) : H8 :=
  let ws := msgSchedule (wordsOfBytes block) 48
  let r := List.foldl sha256Round st (K256.zip ws)
  ⟨wrap32 (st.a + r.a), wrap32 (st.b + r.b), wrap32 (st.c + r.c),
   wrap32 (st.d + r.d), wrap32 (st.e + r.e), wrap32 (st.f + r.f),
   wrap32 (st.g + r.g), wrap32 (st.h + r.h)⟩

/-- Merkle–Damgård padding: `0x80`, zeros, then the 64-bit big-endian bit
length, to a multiple of 64 bytes. -/
def sha256Pad (msg : List Nat) : List Nat :=
  msg ++ [128] ++ List.replicate ((119 - msg.length % 64) % 64) 0 ++
  beBytes 8 (msg.length * 8)

/-- Split into 64-byte blocks. -/
def toBlocks (l : List Nat) : List (List Nat) :=
  if hl : l = [] then []
  else
    have : (l.drop 64).length < l.length := by
      simp only [List.length_drop]
      exact Nat.sub_lt (List.length_pos.mpr hl) (by decide)
    l.take 64 :: toBlocks (l.drop 64)
termination_by l.length

/-- SHA-256 digest (32 bytes) of a byte list. -/
def sha256 (msg : List Nat) : List Nat :=
  let st := (toBlocks (sha256Pad msg)).foldl processBlock initH
  beBytes 4 st.a ++ beBytes 4 st.b ++ beBytes 4 st.c ++ beBytes 4 st.d ++
  beBytes 4 st.e ++ beBytes 4 st.f ++ beBytes 4 st.g ++ beBytes 4 st.h

/-- HMAC-SHA256 with an arbitrary-length byte key. -/
def hmacSha256 (key msg : List Nat) : List Nat :=
  let k0 := if 64 < key.length then sha256 key else key
  let kp := k0 ++ List.replicate (64 - k0.length) 0
  sha256 ((kp.map (fun b => b ^^^ 92)) ++
          sha256 ((kp.map (fun b => b ^^^ 54)) ++ msg))

/-! ## `src/utils/hmac.js` -/

/-- Character-level effect of the two global replacements in `hmacBase64`,
dash to plus and underscore to slash (they commute into one map, since
neither produces a character the other consumes). -/
def canonChar (c : Char) : Char :=
  if c = '-' then '+' else if c = '_' then '/' else c

/-- Base64url canonicalization of a whole secret. -/
def canonStr (s : String) : String := String.mk (s.toList.map canonChar)

/-- The `hmacBase64` function of `src/utils/hmac.js`: the secret is
canonicalized and the resulting STRING is the HMAC key — Node uses its
UTF-8 bytes directly; the secret is never base64-decoded here. -/
def hmacBase64 (secret message : String) : String :=
  let normalizedSecret := canonStr secret
  b64EncodeStr (hmacSha256 (utf8Str normalizedSecret) (utf8Str message))

/-- The `generateSignature` function of `src/utils/hmac.js`: the preimage is
the bare interpolation of method, path, timestamp and body, and `body`
defaults to the empty string. -/
def generateSignature (secret method path : String) (timestamp : Nat)
    (body : String := "") : String :=
  let preimage := method ++ path ++ toString timestamp ++ body
  hmacBase64 secret preimage

/-! ## `src/server.js`: helpers, credential store, handlers -/

/-- The `isB64` regex test of `src/server.js` line 28: one or more standard
base64 alphabet characters followed by at most two `=`. -/
def isB64 (s : String) : Bool :=
  let core := stripPad s.toList
  !core.isEmpty && core.all isB64Char && !(core.contains '=')

/-- The key selection inside `hmacB64` (line 31): decode the secret as
base64 when it matches the standard alphabet, else use its UTF-8 bytes. -/
def hmacB64Key (secret : String) : List Nat :=
  if isB64 secret then b64Decode secret else utf8Str secret

/-- The `hmacB64` function of `src/server.js` (lines 29–33). -/
def hmacB64 (secret pre : String) : String :=
  b64EncodeStr (hmacSha256 (hmacB64Key secret) (utf8Str pre))

/-- Modelled from the spec (claim C1 wording): canonicalize base64url
characters first, THEN base64-decode whenever the result matches the
alphabet, otherwise fall back to the raw UTF-8 bytes of the secret.  This
is the procedure the claim asserts; it is compared against the two
key-derivation procedures actually in the source. -/
def specClaimedHmacKey (secret : String) : List Nat :=
  let c := canonStr secret
  if isB64 c then b64Decode c else utf8Str secret

/-- The store key builder `rowKey` of `src/server.js` line 25. -/
def rowKey (env eoa : String) : String :=
  "polymarket:" ++ env ++ ":" ++ jsLower eoa

/-- A row of the in-memory `STORE` map: the credential tuple written on
successful verification. -/
structure CredRow where
  key : String
  secret : String
  pass : String
  owner : String
deriving DecidableEq

/-- The in-memory `STORE` (`new Map()`), as an association list. -/
def Store := List (String × CredRow)

/-- `STORE.get`. -/
def storeGet (st : Store) (k : String) : Option CredRow :=
  match st with
  | [] => none
  | (k0, v0) :: rest => if k0 = k then some v0 else storeGet rest k

/-- `STORE.set`: replace the existing binding or append a new one. -/
def storeSet (st : Store) (k : String) (v : CredRow) : Store :=
  match st with
  | [] => [(k, v)]
  | (k0, v0) :: rest =>
      if k0 = k then (k, v) :: rest else (k0, v0) :: storeSet rest k v

/-- JavaScript truthiness of a possibly-absent string field: `undefined`
and the empty string are falsy. -/
def truthyStr : Option String → Bool
  | none => false
  | some s => !(s == "")

/-- JavaScript `a || b` on a possibly-absent string with a string default. -/
def orElseStr (a : Option String) (b : String) : String :=
  match a with
  | some s => if s == "" then b else s
  | none => b

/-- An upstream HTTP exchange as a handler observes it: the `ok` flag is
`true` exactly for 2xx statuses (`httpOk` below ties the two together in
concrete scripts). -/
structure UpResp where
  ok : Bool
  status : Nat
deriving DecidableEq

/-- `response.ok`: status in the inclusive range 200–299. -/
def httpOk (status : Nat) : Bool := 200 ≤ status && status ≤ 299

/-- The `key`/`secret`/`passphrase` fields of a parsed create or derive
response body; `none` is an absent field (including the case where the
body failed to parse as JSON at all). -/
structure KeyBody where
  key : Option String := none
  secret : Option String := none
  passphrase : Option String := none
deriving DecidableEq

/-- The upstream responses the `/polymarket/auth-create` handler can
consume, scripted: create, derive (with bodies), the access-status
diagnostic payload, and the verify exchange. -/
structure AuthScript where
  create : UpResp
  createBody : KeyBody
  derive : UpResp
  deriveBody : KeyBody
  accessStatus : String
  verify : UpResp
deriving DecidableEq

/-- What the `/polymarket/auth-create` handler sends back.  `whereTag`
embeds the JSON `where` field of the failure responses. -/
structure AuthCreateResp where
  status : Nat
  ok : Bool
  whereTag : Option String := none
  error : Option String := none
  accessStatus : Option String := none
  sentPre : Option String := none
deriving DecidableEq

/-- The `/polymarket/auth-create` handler of `src/server.js` (lines
43–110), with the relay-key gate already passed, time frozen at `ts`, and
every upstream exchange scripted.  Returns the HTTP response and the store
after the request. -/
def authCreate (script : AuthScript) (store : Store) (env ts : String)
    (address timestamp eip712Signature : Option String) :
    AuthCreateResp × Store :=
  if !(truthyStr address && truthyStr timestamp && truthyStr eip712Signature) then
    ({ status := 400, ok := false, error := some "Missing L1 inputs" }, store)
  else
    let addr := address.getD ""
    if !script.create.ok && !script.derive.ok then
      ({ status := script.derive.status, ok := false, whereTag := some "derive",
         accessStatus := some script.accessStatus }, store)
    else
      let up := if script.create.ok then script.createBody else script.deriveBody
      if !(truthyStr up.key && truthyStr up.secret && truthyStr up.passphrase) then
        ({ status := 502, ok := false, error := some "Malformed API-key response" },
         store)
      else
        let key := up.key.getD ""
        let secret := up.secret.getD ""
        let passphrase := up.passphrase.getD ""
        let pre := "GET/auth/api-keys" ++ ts
        let _sig := hmacB64 secret pre
        if !script.verify.ok then
          ({ status := script.verify.status, ok := false, whereTag := some "verify",
             sentPre := some pre }, store)
        else
          ({ status := 200, ok := true },
           storeSet store (rowKey env addr)
             { key := key, secret := secret, pass := passphrase,
               owner := jsLower addr })

/-- Fields of a parsed order-endpoint response body that the code reads;
`none` is an absent field. -/
structure OrderJson where
  orderID : Option String := none
  errorF : Option String := none
  messageF : Option String := none
deriving DecidableEq

/-- Response of the `/polymarket/l2-sanity` and `/polymarket/order`
handlers: upstream status, ok flag and parsed body forwarded verbatim,
plus the signed preimage and (for the order route) the exact body string
handed to `fetch`. -/
structure ForwardResp where
  status : Nat
  ok : Bool
  error : Option String := none
  sentPre : Option String := none
  sentBody : Option String := none
  upstreamBody : Option OrderJson := none
deriving DecidableEq

/-- The `/polymarket/l2-sanity` handler of `src/server.js` (lines
113–140), relay gate passed, time frozen at `ts`, upstream scripted. -/
def l2Sanity (store : Store) (env ts : String) (address : String)
    (upstream : UpResp) : ForwardResp :=
  match storeGet store (rowKey env address) with
  | none => { status := 400, ok := false, error := some "No creds for EOA" }
  | some row =>
      let pre := "GET/auth/ban-status/closed-only" ++ ts
      let _sig := hmacB64 row.secret pre
      { status := upstream.status, ok := upstream.ok, sentPre := some pre }

/-- The `/polymarket/order` handler of `src/server.js` (lines 143–174):
`body` is the raw request-body string, `parsedAddress` the `address` field
`JSON.parse` finds in it (`String(parsed?.address || "")` makes an absent
field the empty string).  The preimage signs `body` itself, and the very
same string is forwarded to `fetch` (surfaced as `sentBody`). -/
def orderRoute (store : Store) (env ts : String) (body : String)
    (parsedAddress : Option String) (upstream : UpResp)
    (upJson : Option OrderJson) : ForwardResp :=
  let eoa := parsedAddress.getD ""
  match storeGet store (rowKey env eoa) with
  | none => { status := 400, ok := false, error := some "No creds for EOA" }
  | some row =>
      let pre := "POST/order" ++ ts ++ body
      let _sig := hmacB64 row.secret pre
      { status := upstream.status, ok := upstream.ok, sentPre := some pre,
        sentBody := some body, upstreamBody := upJson }

/-! ## `src/utils/polymarket.js` -/

/-- What one `fetch` of the order endpoint produces as `attemptTrade`
observes it: a transport exception, or a response with status, raw text
and the best-effort `JSON.parse` of the text (`none` when parsing threw,
in which case the code wraps the raw text instead). -/
inductive FetchOutcome where
  | excep (msg : String)
  | resp (status : Nat) (text : String) (json : Option OrderJson)
deriving DecidableEq

/-- The return value of `attemptTrade`; `data` is `none` exactly when the
body did not parse (the source then stores the raw-text wrapper, whose
`orderID` is `undefined`). -/
structure AttemptResult where
  success : Bool
  data : Option OrderJson := none
  error : Option String := none
  status : Nat
deriving DecidableEq

/-- The outbound half of `attemptTrade`: the identity header, the
signature and the exact body string handed to `fetch`.  The body signed by
`generateSignature` is the very string transmitted. -/
structure AttemptCall where
  address : String
  signature : String
  body : String
  timestamp : Nat
deriving DecidableEq

/-- What `attemptTrade` sends (`src/utils/polymarket.js` lines 37–53):
`orderBody` stands for `JSON.stringify(signedOrder)`, computed once and
used both in the preimage and as the wire body. -/
def attemptCall (address apiKey secret passphrase : String) (orderBody : String)
    (ts : Nat) : AttemptCall :=
  let signature := generateSignature secret "POST" "/order" ts orderBody
  let _headersUse := (apiKey, passphrase)
  { address := address, signature := signature, body := orderBody,
    timestamp := ts }

/-- The inbound half of `attemptTrade` (lines 48–79): response
classification, including the synthetic status 500 on a thrown transport
error. -/
def attemptTrade (outcome : FetchOutcome) : AttemptResult :=
  match outcome with
  | .excep msg => { success := false, error := some msg, status := 500 }
  | .resp status text json =>
      let ok := httpOk status
      { success := ok
        data := json
        error :=
          if ok then none
          else some (match json with
            | some d => orElseStr d.errorF (orElseStr d.messageF text)
            | none => text)
        status := status }

/-- JavaScript truthiness of the optional `funderAddress` argument:
`undefined`, `null` and the empty string are falsy. -/
def truthyAddr : Option String → Bool
  | none => false
  | some s => !(s == "")

/-- The return value of `executeTrade`. -/
structure ExecResult where
  success : Bool
  orderId : Option String := none
  error : Option String := none
  statusOut : Option Nat := none
  attemptedWith : String
deriving DecidableEq

/-- The `orderID` field the code reads through `result.data?.orderID`. -/
def dataOrderID (r : AttemptResult) : Option String :=
  r.data.bind (fun d => d.orderID)

/-- The retry guard of `executeTrade` line 99: first status exactly 403, a
truthy funder address, and owner and funder differing after lowercasing. -/
def retryCond (first : AttemptResult) (ownerAddress : String)
    (funderAddress : Option String) : Bool :=
  first.status == 403 && truthyAddr funderAddress &&
    !(jsLower (funderAddress.getD "") == jsLower ownerAddress)

/-- The `executeTrade` function (`src/utils/polymarket.js` lines 92–125),
with the two possible upstream exchanges scripted (`second` is consumed
only when the retry fires).  Alongside the result it returns the list of
identity headers actually attempted, in order. -/
def executeTrade (first second : FetchOutcome) (ownerAddress : String)
    (funderAddress : Option String) : ExecResult × List String :=
  let result1 := attemptTrade first
  let retry := retryCond result1 ownerAddress funderAddress
  let result := if retry then attemptTrade second else result1
  let attemptedWith := if retry then "funder" else "owner"
  let trace := if retry then [ownerAddress, funderAddress.getD ""]
               else [ownerAddress]
  if result.success && truthyStr (dataOrderID result) then
    ({ success := true, orderId := dataOrderID result,
       attemptedWith := attemptedWith }, trace)
  else
    ({ success := false,
       error := some (orElseStr result.error "Trade failed"),
       statusOut := some result.status,
       attemptedWith := attemptedWith }, trace)

/-- The `closedOnly` field of a parsed ban-status body; `none` is an
absent (hence falsy) field. -/
structure StatusJson where
  closedOnly : Option Bool := none
deriving DecidableEq

/-- What the ban-status `fetch` produces as `checkTradingStatus` observes
it: a thrown transport error, or a response whose body parse (attempted
only on an OK response) either throws with a message or yields fields. -/
inductive StatusOutcome where
  | excep (msg : String)
  | resp (status : Nat) (parsed : Except String StatusJson)

/-- JavaScript truthiness of the `closedOnly` field. -/
def truthyBool : Option Bool → Bool
  | some true => true
  | _ => false

/-- The structured result of `checkTradingStatus`. -/
structure TradingStatus where
  tradingEnabled : Bool
  closedOnly : Option Bool := none
  error : Option String := none
deriving DecidableEq

/-- The `checkTradingStatus` function (`src/utils/polymarket.js` lines
132–158): every branch — non-OK status, JSON failure, transport error —
resolves to a structured result; nothing escapes the `try`. -/
def checkTradingStatus (outcome : StatusOutcome) : TradingStatus :=
  match outcome with
  | .excep msg => { tradingEnabled := false, error := some msg }
  | .resp status parsed =>
      if !httpOk status then
        { tradingEnabled := false,
          error := some ("Status check failed: " ++ toString status) }
      else
        match parsed with
        | .error msg => { tradingEnabled := false, error := some msg }
        | .ok data =>
            { tradingEnabled := !truthyBool data.closedOnly,
              closedOnly := data.closedOnly }

/-! ## `src/middleware/auth.js` -/

/-- ASCII whitespace, the fragment of the regex class the relay can meet
in an authorization header. -/
def isWs (c : Char) : Bool :=
  c == ' ' || c == '\t' || c == '\n' || c == '\r' || c == '\x0b' || c == '\x0c'

/-- Effect of stripping a leading case-insensitive `Bearer` plus one or
more whitespace characters from the header (the `replace` on line 32);
a header not shaped that way is returned whole. -/
def bearerToken (header : String) : String :=
  let cs := header.toList
  if decide ((cs.take 6).map Char.toLower = "bearer".toList) &&
     (match cs.drop 6 with | c :: _ => isWs c | [] => false) then
    String.mk ((cs.drop 6).dropWhile isWs)
  else header

/-- Outcome of `authenticateRequest`: the 401 missing-header rejection,
the 403 invalid-key rejection, or fall-through to the next handler. -/
inductive AuthDecision where
  | missingHeader
  | invalidKey
  | admitted
deriving DecidableEq

/-- The `authenticateRequest` middleware (`src/middleware/auth.js` lines
15–53).  `production` is whether `NODE_ENV === "production"`; a missing
or empty header is falsy and 401s; in production the token is rejected
only when it differs from the secret AND contains no dot. -/
def authenticateRequest (production : Bool) (apiSecret : String)
    (authHeader : Option String) : AuthDecision :=
  match authHeader with
  | none => .missingHeader
  | some h =>
      if h == "" then .missingHeader
      else
        let token := bearerToken h
        if production then
          if !(token == apiSecret) && !(token.toList.contains '.') then
            .invalidKey
          else .admitted
        else .admitted

/-- `RATE_LIMIT_WINDOW` (line 9): one minute in milliseconds. -/
def RATE_LIMIT_WINDOW : Int := 60000

/-- `RATE_LIMIT_MAX_REQUESTS` (line 10). -/
def RATE_LIMIT_MAX_REQUESTS : Nat := 10

/-- JavaScript `Math.ceil(x / 1000)` on an integer millisecond count. -/
def ceilDiv1000 (x : Int) : Int := Int.fdiv (x + 999) 1000

/-- Outcome of one pass through the rate limiter for one user: the 429
rejection with its `retryAfter` hint, or admission with the remaining
quota that goes into the response headers. -/
inductive RateOutcome where
  | limited (retryAfter : Int)
  | admitted (remaining : Nat)
deriving DecidableEq

/-- One pass of `rateLimiter` (`src/middleware/auth.js` lines 66–97) over
one user's stored timestamp list: expired entries are filtered out of the
local copy, the limit check runs on the filtered copy, and ONLY the admit
path writes back (filtered plus the new timestamp); the reject path never
calls `rateLimitMap.set`, so the stored list survives unchanged. -/
def rateLimiterStep (stored : List Int) (now : Int) :
    RateOutcome × List Int :=
  let requests := stored.filter (fun t => now - t < RATE_LIMIT_WINDOW)
  if RATE_LIMIT_MAX_REQUESTS ≤ requests.length then
    let oldestRequest := requests.headD 0
    let retryAfter := ceilDiv1000 (RATE_LIMIT_WINDOW - (now - oldestRequest))
    (.limited retryAfter, stored)
  else
    let requests' := requests ++ [now]
    (.admitted (RATE_LIMIT_MAX_REQUESTS - requests'.length), requests')

/-- A whole sequence of requests for one user, folded through
`rateLimiterStep`; returns the outcomes in order and the final stored
list. -/
def rateLimiterRun (stored : List Int) (times : List Int) :
    List RateOutcome × List Int :=
  match times with
  | [] => ([], stored)
  | t :: rest =>
      let (o, st) := rateLimiterStep stored t
      let (os, stFinal) := rateLimiterRun st rest
      (o :: os, stFinal)

/-! ## Helper lemmas: rate limiter -/

/-- Discriminator for admission. -/
def isAdmitted : RateOutcome → Bool
  | .admitted _ => true
  | .limited _ => false

lemma rateLimiterRun_cons (s : List Int) (t : Int) (rest : List Int) :
    rateLimiterRun s (t :: rest) =
      ((rateLimiterStep s t).1 ::
         (rateLimiterRun (rateLimiterStep s t).2 rest).1,
       (rateLimiterRun (rateLimiterStep s t).2 rest).2) := rfl

lemma one_le_ceilDiv1000 (x : Int) (hx : 1 ≤ x) : 1 ≤ ceilDiv1000 x := by
  unfold ceilDiv1000
  rw [Int.fdiv_eq_ediv _ (by omega)]
  omega

lemma step_reject_keeps (s : List Int) (t : Int)
    (h : isAdmitted (rateLimiterStep s t).1 = false) :
    (rateLimiterStep s t).2 = s := by
  unfold rateLimiterStep at *
  by_cases hc :
      RATE_LIMIT_MAX_REQUESTS ≤
        (s.filter (fun u => t - u < RATE_LIMIT_WINDOW)).length
  · simp [hc]
  · simp [hc, isAdmitted] at h

lemma run_no_admit_keeps (ts : List Int) :
    ∀ s : List Int, (∀ o ∈ (rateLimiterRun s ts).1, isAdmitted o = false) →
      (rateLimiterRun s ts).2 = s := by
  induction ts with
  | nil => intro s _; rfl
  | cons t rest ih =>
      intro s hall
      have hhead : isAdmitted (rateLimiterStep s t).1 = false := by
        have := hall (rateLimiterStep s t).1
        apply this
        simp [rateLimiterRun]
      have hkeep := step_reject_keeps s t hhead
      have htail := ih (rateLimiterStep s t).2 (by
        intro o ho
        apply hall
        simp [rateLimiterRun]
        right
        exact ho)
      simp [rateLimiterRun]
      rw [hkeep] at htail ⊢
      exact htail

lemma step_uniform_admits (k : Nat) (now : Int)
    (hk : k < RATE_LIMIT_MAX_REQUESTS) :
    rateLimiterStep (List.replicate k now) now =
      (.admitted (RATE_LIMIT_MAX_REQUESTS - (k + 1)),
       List.replicate (k + 1) now) := by
  have hfilter :
      (List.replicate k now).filter (fun t => now - t < RATE_LIMIT_WINDOW) =
        List.replicate k now := by
    apply List.filter_eq_self.mpr
    intro a ha
    have ha' : a = now := List.eq_of_mem_replicate ha
    subst ha'
    simp [RATE_LIMIT_WINDOW]
  unfold rateLimiterStep
  rw [hfilter]
  rw [if_neg (by simp [List.length_replicate]; omega)]
  simp [List.length_replicate, List.replicate_succ']

lemma run_uniform_admits (now : Int) :
    ∀ (n k : Nat), k + n ≤ RATE_LIMIT_MAX_REQUESTS →
      ((rateLimiterRun (List.replicate k now)
          (List.replicate n now)).1.all isAdmitted) = true := by
  intro n
  induction n with
  | zero => intro k _; simp [rateLimiterRun]
  | succ m ih =>
      intro k hk
      have hk10 : k + (m + 1) ≤ 10 := hk
      have hk' : k < RATE_LIMIT_MAX_REQUESTS := by
        show k < 10
        omega
      rw [List.replicate_succ]
      simp only [rateLimiterRun, step_uniform_admits k now hk']
      simp only [List.all_cons, isAdmitted, Bool.true_and]
      exact ih (k + 1) (by show k + 1 + m ≤ 10; omega)

/-! ## C7 -/

/-- Claim C7: with the window `W = RATE_LIMIT_WINDOW` and maximum
`N = RATE_LIMIT_MAX_REQUESTS`, an owner whose stored log already holds `N`
requests inside the last window is rejected, with a retry-after of at
least one second; and an owner all of whose stored requests are at least
`W` old is admitted for `N` fresh requests in a row. -/
theorem c7_window_refill (s : List Int) (now now2 : Int)
    (hfull : RATE_LIMIT_MAX_REQUESTS ≤
      (s.filter (fun t => now - t < RATE_LIMIT_WINDOW)).length)
    (helapsed : ∀ t ∈ s, RATE_LIMIT_WINDOW ≤ now2 - t) :
    (∃ r, rateLimiterStep s now = (.limited r, s) ∧ 1 ≤ r) ∧
    ((rateLimiterRun s
        (List.replicate RATE_LIMIT_MAX_REQUESTS now2)).1.all isAdmitted)
      = true := by
  constructor
  · rcases hreq : s.filter (fun t => now - t < RATE_LIMIT_WINDOW) with _ | ⟨a, as⟩
    · rw [hreq] at hfull
      simp [RATE_LIMIT_MAX_REQUESTS] at hfull
    · have hmem : a ∈ s.filter (fun t => now - t < RATE_LIMIT_WINDOW) := by
        rw [hreq]; exact List.mem_cons_self a as
      have hwin : now - a < RATE_LIMIT_WINDOW :=
        of_decide_eq_true (List.mem_filter.mp hmem).2
      refine ⟨ceilDiv1000 (RATE_LIMIT_WINDOW - (now - a)), ?_, ?_⟩
      · unfold rateLimiterStep
        rw [hreq, if_pos (by rw [hreq] at hfull; exact hfull)]
        simp
      · exact one_le_ceilDiv1000 _ (by omega)
  · have hdrop : s.filter (fun t => now2 - t < RATE_LIMIT_WINDOW) = [] := by
      apply List.filter_eq_nil_iff.mpr
      intro t ht
      have := helapsed t ht
      simp only [decide_eq_true_eq]
      omega
    have hstep : rateLimiterStep s now2 =
        (.admitted (RATE_LIMIT_MAX_REQUESTS - 1), [now2]) := by
      unfold rateLimiterStep
      rw [hdrop]
      rw [if_neg (by simp [RATE_LIMIT_MAX_REQUESTS])]
      simp
    have h10 : RATE_LIMIT_MAX_REQUESTS = 9 + 1 := rfl
    rw [h10, List.replicate_succ, rateLimiterRun_cons, hstep]
    simp only [List.all_cons, isAdmitted, Bool.true_and]
    have he : [now2] = List.replicate 1 now2 := rfl
    rw [he]
    exact run_uniform_admits now2 9 1 (by show 1 + 9 ≤ 10; omega)

/-- Claim C7 witness: ten requests at time 0 fill the window; at time 1 the
next request is rejected with a positive retry-after; at time 60000 the
window has elapsed and ten fresh requests are all admitted. -/
theorem c7_window_refill_witness :
    (∃ r, rateLimiterStep (List.replicate 10 (0 : Int)) 1 =
        (.limited r, List.replicate 10 (0 : Int)) ∧ 1 ≤ r) ∧
    ((rateLimiterRun (List.replicate 10 (0 : Int))
        (List.replicate RATE_LIMIT_MAX_REQUESTS 60000)).1.all isAdmitted)
      = true :=
  c7_window_refill (List.replicate 10 (0 : Int)) 1 60000 (by decide)
    (by decide)

/-! ## C9 -/

/-- Claim C9: a rejected request writes nothing back — the stored list is
unchanged, so rejected attempts consume no quota; a run that admits
nothing leaves the store exactly as it was; and an owner whose stored
list is within capacity regains admission as soon as some stored
timestamp has aged past the window, however many rejections happened in
between. -/
theorem c9_reject_consumes_nothing (s : List Int) (now now2 : Int)
    (ts : List Int)
    (hlen : s.length ≤ RATE_LIMIT_MAX_REQUESTS)
    (haged : ∃ t ∈ s, RATE_LIMIT_WINDOW ≤ now2 - t)
    (hall : ∀ o ∈ (rateLimiterRun s ts).1, isAdmitted o = false) :
    (isAdmitted (rateLimiterStep s now).1 = false →
      (rateLimiterStep s now).2 = s) ∧
    (rateLimiterRun s ts).2 = s ∧
    isAdmitted (rateLimiterStep s now2).1 = true := by
  refine ⟨step_reject_keeps s now, run_no_admit_keeps ts s hall, ?_⟩
  obtain ⟨t0, ht0, haged0⟩ := haged
  have hshort :
      (s.filter (fun t => now2 - t < RATE_LIMIT_WINDOW)).length < s.length := by
    apply List.length_filter_lt_length_iff_exists.mpr
    exact ⟨t0, ht0, by simp only [decide_eq_true_eq]; omega⟩
  have hlt : (s.filter (fun t => now2 - t < RATE_LIMIT_WINDOW)).length <
      RATE_LIMIT_MAX_REQUESTS := by
    have h1 : s.length ≤ 10 := hlen
    show _ < 10
    omega
  unfold rateLimiterStep
  rw [if_neg (by omega)]
  simp [isAdmitted]

/-- Claim C9 witness: a full log of ten timestamps at 0; after the rejected
attempt at time 1 the stored list is unchanged, and at time 60000 the
owner is admitted again. -/
theorem c9_reject_consumes_nothing_witness :
    (isAdmitted (rateLimiterStep (List.replicate 10 (0 : Int)) 1).1 = false →
      (rateLimiterStep (List.replicate 10 (0 : Int)) 1).2 =
        List.replicate 10 (0 : Int)) ∧
    (rateLimiterRun (List.replicate 10 (0 : Int)) [1]).2 =
      List.replicate 10 (0 : Int) ∧
    isAdmitted (rateLimiterStep (List.replicate 10 (0 : Int)) 60000).1
      = true :=
  c9_reject_consumes_nothing (List.replicate 10 (0 : Int)) 1 60000 [1]
    (by decide) (by decide) (by decide)

/-! ## C6 -/

/-- Claim C6: in production mode, a present bearer token is admitted exactly
when it equals the shared secret or contains a dot; it is rejected with
the invalid-key 403 exactly when it both differs from the secret and
contains no dot — so any dotted token bypasses the secret comparison. -/
theorem c6_jwt_shaped_bypass (apiSecret hd : String) (hne : hd ≠ "") :
    (authenticateRequest true apiSecret (some hd) = .admitted ↔
      bearerToken hd = apiSecret ∨
        (bearerToken hd).toList.contains '.' = true) ∧
    (authenticateRequest true apiSecret (some hd) = .invalidKey ↔
      bearerToken hd ≠ apiSecret ∧
        (bearerToken hd).toList.contains '.' = false) := by
  have hb : (hd == "") = false := by
    simp only [beq_eq_false_iff_ne, ne_eq]
    exact hne
  by_cases h1 : bearerToken hd = apiSecret
  · constructor
    · simp [authenticateRequest, hb, h1]
    · simp [authenticateRequest, hb, h1]
  · by_cases h2 : (bearerToken hd).toList.contains '.' = true
    · constructor
      · simp [authenticateRequest, hb, h1, h2]
      · simp [authenticateRequest, hb, h1, h2]
    · constructor
      · simp [authenticateRequest, hb, h1, h2]
      · simp [authenticateRequest, hb, h1, h2]

/-- Claim C6 witness: the dotted token differs from the secret yet is admitted
in production. -/
theorem c6_jwt_shaped_bypass_witness :
    authenticateRequest true "real-secret" (some "Bearer a.b") = .admitted :=
  ((c6_jwt_shaped_bypass "real-secret" "Bearer a.b" (by decide)).1).mpr
    (Or.inr (by decide))

/-! ## Helper lemmas: trade executor -/

lemma executeTrade_trace (f s : FetchOutcome) (o : String)
    (fu : Option String) :
    (executeTrade f s o fu).2 =
      if retryCond (attemptTrade f) o fu then [o, fu.getD ""] else [o] := by
  unfold executeTrade
  by_cases hr : retryCond (attemptTrade f) o fu
  · simp only [hr, if_true]
    by_cases hs : ((attemptTrade s).success &&
        truthyStr (dataOrderID (attemptTrade s))) = true
    · simp [hs]
    · simp [hs]
  · simp only [hr, if_false, Bool.false_eq_true]
    by_cases hs : ((attemptTrade f).success &&
        truthyStr (dataOrderID (attemptTrade f))) = true
    · simp [hr, hs]
    · simp [hr, hs]

lemma executeTrade_attemptedWith (f s : FetchOutcome) (o : String)
    (fu : Option String) :
    (executeTrade f s o fu).1.attemptedWith =
      if retryCond (attemptTrade f) o fu then "funder" else "owner" := by
  unfold executeTrade
  by_cases hr : retryCond (attemptTrade f) o fu
  · simp only [hr, if_true]
    by_cases hs : ((attemptTrade s).success &&
        truthyStr (dataOrderID (attemptTrade s))) = true
    · simp [hs]
    · simp [hs]
  · simp only [hr, if_false, Bool.false_eq_true]
    by_cases hs : ((attemptTrade f).success &&
        truthyStr (dataOrderID (attemptTrade f))) = true
    · simp [hr, hs]
    · simp [hr, hs]

lemma retryCond_iff (r : AttemptResult) (o : String) (fu : Option String) :
    retryCond r o fu = true ↔
      r.status = 403 ∧ truthyAddr fu = true ∧
        jsLower (fu.getD "") ≠ jsLower o := by
  unfold retryCond
  simp [Bool.and_eq_true, beq_iff_eq, and_assoc]

/-! ## C2 -/

/-- Claim C2: `executeTrade` makes at most two attempts; a second attempt — with
the funder identity — happens exactly when the first attempt's status is
403, a funder address is supplied (truthy), and the funder differs from
the owner after lowercasing; any other first status (including the
synthetic 500 of a thrown transport) ends the call after the single owner
attempt. -/
theorem c2_dual_address_retry (first second : FetchOutcome) (owner : String)
    (funder : Option String) :
    (executeTrade first second owner funder).2.length ≤ 2 ∧
    ((executeTrade first second owner funder).2 = [owner, funder.getD ""] ∧
       (executeTrade first second owner funder).1.attemptedWith = "funder" ↔
      (attemptTrade first).status = 403 ∧ truthyAddr funder = true ∧
        jsLower (funder.getD "") ≠ jsLower owner) ∧
    ((attemptTrade first).status ≠ 403 →
      (executeTrade first second owner funder).2 = [owner] ∧
      (executeTrade first second owner funder).1.attemptedWith = "owner") ∧
    (∀ msg, first = FetchOutcome.excep msg →
      (executeTrade first second owner funder).2 = [owner] ∧
      (executeTrade first second owner funder).1.attemptedWith = "owner") := by
  have htr := executeTrade_trace first second owner funder
  have haw := executeTrade_attemptedWith first second owner funder
  by_cases hr : retryCond (attemptTrade first) owner funder = true
  · rw [if_pos hr] at htr haw
    have hc := (retryCond_iff (attemptTrade first) owner funder).mp hr
    refine ⟨?_, ?_, ?_, ?_⟩
    · rw [htr]; simp
    · exact ⟨fun _ => hc, fun _ => ⟨htr, haw⟩⟩
    · intro h403; exact absurd hc.1 h403
    · intro msg hmsg
      subst hmsg
      have : (attemptTrade (FetchOutcome.excep msg)).status = 500 := rfl
      rw [this] at hc
      exact absurd hc.1 (by omega)
  · rw [if_neg hr] at htr haw
    refine ⟨?_, ?_, ?_, ?_⟩
    · rw [htr]; simp
    · constructor
      · intro hcontra
        rw [htr] at hcontra
        exact absurd (congrArg List.length hcontra.1) (by simp)
      · intro hc
        exact absurd ((retryCond_iff (attemptTrade first) owner funder).mpr hc)
          hr
    · intro _; exact ⟨htr, haw⟩
    · intro _ _; exact ⟨htr, haw⟩

/-- Claim C2 witness: a 403 first attempt with a distinct funder retries once
with the funder identity. -/
theorem c2_dual_address_retry_witness :
    (executeTrade (.resp 403 "blocked" none)
        (.resp 200 "" (some { orderID := some "ord-123" }))
        "0xAA" (some "0xBB")).2 = ["0xAA", "0xBB"] ∧
    (executeTrade (.resp 403 "blocked" none)
        (.resp 200 "" (some { orderID := some "ord-123" }))
        "0xAA" (some "0xBB")).1.attemptedWith = "funder" :=
  (c2_dual_address_retry (.resp 403 "blocked" none)
      (.resp 200 "" (some { orderID := some "ord-123" }))
      "0xAA" (some "0xBB")).2.1.mpr ⟨by decide, by decide, by decide⟩

/-! ## C3 -/

/-- The attempt whose response decides the outcome of `executeTrade`. -/
def execFinal (first second : FetchOutcome) (owner : String)
    (funder : Option String) : AttemptResult :=
  if retryCond (attemptTrade first) owner funder then attemptTrade second
  else attemptTrade first

lemma truthyStr_iff (x : Option String) :
    truthyStr x = true ↔ ∃ s, x = some s ∧ s ≠ "" := by
  cases x with
  | none => simp [truthyStr]
  | some s => simp [truthyStr]

lemma executeTrade_result (f s : FetchOutcome) (o : String)
    (fu : Option String) :
    (executeTrade f s o fu).1.success =
      ((execFinal f s o fu).success &&
        truthyStr (dataOrderID (execFinal f s o fu))) := by
  unfold executeTrade execFinal
  by_cases hr : retryCond (attemptTrade f) o fu
  · simp only [hr, if_true]
    cases hs : ((attemptTrade s).success &&
        truthyStr (dataOrderID (attemptTrade s))) with
    | true => simp [hs]
    | false => simp [hs]
  · simp only [hr, if_false, Bool.false_eq_true]
    cases hs : ((attemptTrade f).success &&
        truthyStr (dataOrderID (attemptTrade f))) with
    | true => simp [hr, hs]
    | false => simp [hr, hs]

/-- Claim C3 counterexample: the raw `/polymarket/order` relay route reports
`ok = true` for a 200 upstream response whose parsed body has NO order
identifier — so "success iff HTTP-OK and a non-empty order id" fails on
this order-placement path, which forwards the upstream ok flag verbatim. -/
theorem c3_counterexample :
    (orderRoute
        [(rowKey "prod" "0xAa",
          { key := "k", secret := "s", pass := "p", owner := "0xaa" })]
        "prod" "7" "payload" (some "0xAa")
        { ok := true, status := 200 } (some {})).ok = true ∧
    httpOk 200 = true ∧
    (some ({} : OrderJson)).bind (fun d => d.orderID) = none := by
  refine ⟨by decide, by decide, rfl⟩

/-- Claim C3 amended: `executeTrade` reports success exactly when its decisive
attempt was HTTP-OK (2xx) and the parsed body carries a non-empty
`orderID` — a 200 without an order id is a failure there; the raw
`/polymarket/order` relay route of `src/server.js`, by contrast, simply
mirrors the upstream `ok` flag and ignores the body. -/
theorem c3_success_iff (first second : FetchOutcome) (owner : String)
    (funder : Option String) (store : Store) (env ts body : String)
    (addr : Option String) (up : UpResp) (upJson : Option OrderJson)
    (row : CredRow)
    (hrow : storeGet store (rowKey env (addr.getD "")) = some row) :
    ((executeTrade first second owner funder).1.success = true ↔
      (execFinal first second owner funder).success = true ∧
        ∃ oid, dataOrderID (execFinal first second owner funder) = some oid ∧
          oid ≠ "") ∧
    (∀ o, (attemptTrade o).success = true ↔
      ∃ st tx js, o = .resp st tx js ∧ httpOk st = true) ∧
    (orderRoute store env ts body addr up upJson).ok = up.ok := by
  refine ⟨?_, ?_, ?_⟩
  · rw [executeTrade_result]
    rw [Bool.and_eq_true]
    rw [truthyStr_iff]
  · intro o
    cases o with
    | excep msg => simp [attemptTrade]
    | resp st tx js =>
        simp only [attemptTrade]
        constructor
        · intro h; exact ⟨st, tx, js, rfl, h⟩
        · rintro ⟨st', tx', js', heq, hok⟩
          cases heq
          exact hok
  · simp only [orderRoute]
    rw [hrow]

/-- Claim C3 witness: with stored credentials present, the relay order route
forwards a 200 upstream `ok` unchanged. -/
theorem c3_success_iff_witness :
    (orderRoute
        [(rowKey "prod" "0xAa",
          { key := "k", secret := "s", pass := "p", owner := "0xaa" })]
        "prod" "7" "payload" (some "0xAa")
        { ok := true, status := 200 } none).ok =
      ({ ok := true, status := 200 } : UpResp).ok :=
  (c3_success_iff (.resp 200 "" none) (.resp 200 "" none) "0xAA" none
      [(rowKey "prod" "0xAa",
        { key := "k", secret := "s", pass := "p", owner := "0xaa" })]
      "prod" "7" "payload" (some "0xAa") { ok := true, status := 200 } none
      { key := "k", secret := "s", pass := "p", owner := "0xaa" }
      (by decide)).2.2

/-! ## C8 -/

/-- Claim C8: `checkTradingStatus` resolves every upstream behaviour to a
structured result: an OK response with a parsed body reports
`tradingEnabled` as the negation of the truthiness of `closedOnly` (and
no error); a non-OK response reports disabled with the status-bearing
error string; an OK response whose body fails to parse, and a thrown
transport, report disabled with the exception message. -/
theorem c8_check_trading_status_total (outcome : StatusOutcome) :
    (∀ status d, outcome = .resp status (Except.ok d) → httpOk status = true →
      checkTradingStatus outcome =
        { tradingEnabled := !truthyBool d.closedOnly,
          closedOnly := d.closedOnly }) ∧
    (∀ status p, outcome = .resp status p → httpOk status = false →
      checkTradingStatus outcome =
        { tradingEnabled := false,
          error := some ("Status check failed: " ++ toString status) }) ∧
    (∀ status msg, outcome = .resp status (Except.error msg) →
      httpOk status = true →
      checkTradingStatus outcome =
        { tradingEnabled := false, error := some msg }) ∧
    (∀ msg, outcome = .excep msg →
      checkTradingStatus outcome =
        { tradingEnabled := false, error := some msg }) := by
  refine ⟨?_, ?_, ?_, ?_⟩
  · rintro status d rfl hok
    simp [checkTradingStatus, hok]
  · rintro status p rfl hbad
    simp [checkTradingStatus, hbad]
  · rintro status msg rfl hok
    simp [checkTradingStatus, hok]
  · rintro msg rfl
    simp [checkTradingStatus]

/-- Claim C8 witness: an OK response with `closedOnly: true` reports trading
disabled with no error. -/
theorem c8_check_trading_status_total_witness :
    checkTradingStatus (.resp 200 (Except.ok { closedOnly := some true })) =
      { tradingEnabled := false, closedOnly := some true } := by
  have h := (c8_check_trading_status_total
      (.resp 200 (Except.ok { closedOnly := some true }))).1
    200 { closedOnly := some true } rfl (by decide)
  simpa using h

/-! ## Helper lemmas: auth-create flow and store -/

/-- The body the handler destructures: the create body when create
succeeded, the derive body otherwise. -/
def authUp (script : AuthScript) : KeyBody :=
  if script.create.ok then script.createBody else script.deriveBody

/-- The credential row the handler writes on full success. -/
def authRow (script : AuthScript) (addr : String) : CredRow :=
  { key := (authUp script).key.getD "",
    secret := (authUp script).secret.getD "",
    pass := (authUp script).passphrase.getD "",
    owner := jsLower addr }

lemma authCreate_success_store (script : AuthScript) (store : Store)
    (env ts : String) (address timestamp eip712Signature : Option String)
    (hin : (truthyStr address && truthyStr timestamp &&
            truthyStr eip712Signature) = true)
    (hcr : script.create.ok = true)
    (hup : (truthyStr script.createBody.key &&
            truthyStr script.createBody.secret &&
            truthyStr script.createBody.passphrase) = true)
    (hv : script.verify.ok = true) :
    authCreate script store env ts address timestamp eip712Signature =
      ({ status := 200, ok := true },
       storeSet store (rowKey env (address.getD ""))
         (authRow script (address.getD ""))) := by
  simp [authCreate, authRow, authUp, hin, hcr, hup, hv]

lemma storeGet_storeSet_same (st : Store) (k : String) (v : CredRow) :
    storeGet (storeSet st k v) k = some v := by
  induction st with
  | nil => simp [storeSet, storeGet]
  | cons p rest ih =>
      obtain ⟨k0, v0⟩ := p
      by_cases h : k0 = k
      · simp [storeSet, storeGet, h]
      · simp [storeSet, storeGet, h, ih]

/-! ## C5 -/

/-- Claim C5: with well-formed inputs, (a) create and derive both failing yields
the derive-tagged failure with the derive status and an unchanged store;
(b) credentials obtained but verify failing yields the verify-tagged
failure and an unchanged store; (c) whenever verify fails the store is
never written; (d) only the all-success path writes, and it writes the
credential tuple under the row key built from the lowercased owner
address. -/
theorem c5_auth_flow_tags (script : AuthScript) (store : Store)
    (env ts : String) (address timestamp eip712Signature : Option String)
    (hin : (truthyStr address && truthyStr timestamp &&
            truthyStr eip712Signature) = true) :
    (script.create.ok = false → script.derive.ok = false →
      (authCreate script store env ts address timestamp
          eip712Signature).1.whereTag = some "derive" ∧
      (authCreate script store env ts address timestamp
          eip712Signature).1.status = script.derive.status ∧
      (authCreate script store env ts address timestamp
          eip712Signature).2 = store) ∧
    ((script.create.ok = true ∨ script.derive.ok = true) →
      (truthyStr (authUp script).key && truthyStr (authUp script).secret &&
        truthyStr (authUp script).passphrase) = true →
      script.verify.ok = false →
      (authCreate script store env ts address timestamp
          eip712Signature).1.whereTag = some "verify" ∧
      (authCreate script store env ts address timestamp
          eip712Signature).1.status = script.verify.status ∧
      (authCreate script store env ts address timestamp
          eip712Signature).2 = store) ∧
    (script.verify.ok = false →
      (authCreate script store env ts address timestamp
          eip712Signature).2 = store) ∧
    (script.create.ok = true →
      (truthyStr script.createBody.key && truthyStr script.createBody.secret &&
        truthyStr script.createBody.passphrase) = true →
      script.verify.ok = true →
      (authCreate script store env ts address timestamp
          eip712Signature).2 =
        storeSet store (rowKey env (address.getD ""))
          (authRow script (address.getD ""))) ∧
    rowKey env (address.getD "") =
      "polymarket:" ++ env ++ ":" ++ jsLower (address.getD "") := by
  refine ⟨?_, ?_, ?_, ?_, rfl⟩
  · intro hcf hdf
    simp [authCreate, hin, hcf, hdf]
  · intro hco hup hv
    by_cases hcr : script.create.ok = true
    · simp only [authUp, hcr, if_true] at hup
      simp [authCreate, hin, hcr, hup, hv]
    · have hdr : script.derive.ok = true := by
        rcases hco with h | h
        · exact absurd h hcr
        · exact h
      simp only [Bool.not_eq_true] at hcr
      simp only [authUp, hcr, Bool.false_eq_true, if_false] at hup
      simp [authCreate, hin, hcr, hdr, hup, hv]
  · intro hv
    by_cases hcr : script.create.ok = true
    · by_cases hup : (truthyStr script.createBody.key &&
          truthyStr script.createBody.secret &&
          truthyStr script.createBody.passphrase) = true
      · simp [authCreate, hin, hcr, hup, hv]
      · simp only [Bool.not_eq_true] at hup
        simp [authCreate, hin, hcr, hup]
    · simp only [Bool.not_eq_true] at hcr
      by_cases hdr : script.derive.ok = true
      · by_cases hup : (truthyStr script.deriveBody.key &&
            truthyStr script.deriveBody.secret &&
            truthyStr script.deriveBody.passphrase) = true
        · simp [authCreate, hin, hcr, hdr, hup, hv]
        · simp only [Bool.not_eq_true] at hup
          simp [authCreate, hin, hcr, hdr, hup]
      · simp only [Bool.not_eq_true] at hdr
        simp [authCreate, hin, hcr, hdr]
  · intro hcr hup hv
    rw [authCreate_success_store script store env ts address timestamp
      eip712Signature hin hcr hup hv]

/-- Claim C5 witness: create and derive both rejected with 400 yields the
derive-tagged failure and leaves the empty store empty. -/
theorem c5_auth_flow_tags_witness :
    (authCreate
        { create := { ok := false, status := 400 }, createBody := {},
          derive := { ok := false, status := 400 }, deriveBody := {},
          accessStatus := "diag", verify := { ok := false, status := 401 } }
        [] "prod" "1" (some "0xAa") (some "7") (some "0xsig")).1.whereTag =
      some "derive" ∧
    (authCreate
        { create := { ok := false, status := 400 }, createBody := {},
          derive := { ok := false, status := 400 }, deriveBody := {},
          accessStatus := "diag", verify := { ok := false, status := 401 } }
        [] "prod" "1" (some "0xAa") (some "7") (some "0xsig")).1.status =
      400 ∧
    (authCreate
        { create := { ok := false, status := 400 }, createBody := {},
          derive := { ok := false, status := 400 }, deriveBody := {},
          accessStatus := "diag", verify := { ok := false, status := 401 } }
        [] "prod" "1" (some "0xAa") (some "7") (some "0xsig")).2 = [] :=
  (c5_auth_flow_tags
      { create := { ok := false, status := 400 }, createBody := {},
        derive := { ok := false, status := 400 }, deriveBody := {},
        accessStatus := "diag", verify := { ok := false, status := 401 } }
      [] "prod" "1" (some "0xAa") (some "7") (some "0xsig")
      (by decide)).1 rfl rfl

/-! ## C10 -/

/-- Claim C10: after a fully successful auth-create for address `a`, any
case-variant `b` of `a` (equal after lowercasing) reads back the very
tuple that was stored — the l2-sanity and order handlers both find the
credentials and forward the upstream response — because the row key
lowercases the address on the write path and on both read paths. -/
theorem c10_case_insensitive_store (script : AuthScript) (store : Store)
    (env ts ts2 ts3 body : String) (a b : String)
    (timestamp eip712Signature : Option String) (up : UpResp)
    (upJson : Option OrderJson)
    (hlow : jsLower b = jsLower a)
    (hin : (truthyStr (some a) && truthyStr timestamp &&
            truthyStr eip712Signature) = true)
    (hcr : script.create.ok = true)
    (hup : (truthyStr script.createBody.key &&
            truthyStr script.createBody.secret &&
            truthyStr script.createBody.passphrase) = true)
    (hv : script.verify.ok = true) :
    storeGet (authCreate script store env ts (some a) timestamp
        eip712Signature).2 (rowKey env b) = some (authRow script a) ∧
    l2Sanity (authCreate script store env ts (some a) timestamp
        eip712Signature).2 env ts2 b up =
      { status := up.status, ok := up.ok,
        sentPre := some ("GET/auth/ban-status/closed-only" ++ ts2) } ∧
    orderRoute (authCreate script store env ts (some a) timestamp
        eip712Signature).2 env ts3 body (some b) up upJson =
      { status := up.status, ok := up.ok,
        sentPre := some ("POST/order" ++ ts3 ++ body),
        sentBody := some body, upstreamBody := upJson } := by
  have hkey : rowKey env b = rowKey env a := by
    unfold rowKey
    rw [hlow]
  have hstore := authCreate_success_store script store env ts (some a)
    timestamp eip712Signature hin hcr hup hv
  have hget : storeGet (authCreate script store env ts (some a) timestamp
      eip712Signature).2 (rowKey env b) = some (authRow script a) := by
    rw [hstore]
    simp only [hkey]
    exact storeGet_storeSet_same store (rowKey env a) (authRow script a)
  refine ⟨hget, ?_, ?_⟩
  · unfold l2Sanity
    rw [hget]
  · simp only [orderRoute, Option.getD_some]
    rw [hget]

/-- Claim C10 witness: credentials stored for `0xAbCd` are found again when the
caller presents `0XABCD`. -/
theorem c10_case_insensitive_store_witness :
    storeGet (authCreate
        { create := { ok := true, status := 200 },
          createBody := { key := some "k0", secret := some "s0",
                          passphrase := some "p0" },
          derive := { ok := false, status := 400 }, deriveBody := {},
          accessStatus := "", verify := { ok := true, status := 200 } }
        [] "prod" "1" (some "0xAbCd") (some "7") (some "0xsig")).2
      (rowKey "prod" "0XABCD") =
      some (authRow
        { create := { ok := true, status := 200 },
          createBody := { key := some "k0", secret := some "s0",
                          passphrase := some "p0" },
          derive := { ok := false, status := 400 }, deriveBody := {},
          accessStatus := "", verify := { ok := true, status := 200 } }
        "0xAbCd") :=
  (c10_case_insensitive_store
      { create := { ok := true, status := 200 },
        createBody := { key := some "k0", secret := some "s0",
                        passphrase := some "p0" },
        derive := { ok := false, status := 400 }, deriveBody := {},
        accessStatus := "", verify := { ok := true, status := 200 } }
      [] "prod" "1" "2" "3" "payload" "0xAbCd" "0XABCD" (some "7")
      (some "0xsig") { ok := true, status := 200 } none
      (by decide) (by decide) rfl (by decide) rfl).1

/-! ## Helper lemmas: canonicalization and base64 shape -/

lemma canonChar_idem (c : Char) : canonChar (canonChar c) = canonChar c := by
  by_cases h1 : c = '-'
  · simp [canonChar, h1]
  · by_cases h2 : c = '_'
    · simp [canonChar, h2]
    · simp [canonChar, h1, h2]

lemma canonStr_idem (s : String) : canonStr (canonStr s) = canonStr s := by
  unfold canonStr
  congr 1
  show (s.toList.map canonChar).map canonChar = s.toList.map canonChar
  rw [List.map_map]
  apply List.map_congr_left
  intro a _
  exact canonChar_idem a

lemma b64CharOfVal_mem (n : Nat) : b64CharOfVal n ∈ B64STD := by
  unfold b64CharOfVal
  rcases Nat.lt_or_ge n B64STD.length with h | h
  · rw [List.getD_eq_getElem B64STD 'A' h]
    exact List.getElem_mem h
  · rw [List.getD_eq_default B64STD 'A' h]
    decide

lemma b64EncodeBytes_mem : ∀ (l : List Nat),
    ∀ c ∈ b64EncodeBytes l, c ∈ B64STD ∨ c = '='
  | [] => by simp [b64EncodeBytes]
  | [a] => by
      intro c hc
      simp only [b64EncodeBytes, List.mem_cons, List.not_mem_nil,
        or_false] at hc
      rcases hc with rfl | rfl | rfl | rfl
      · exact Or.inl (b64CharOfVal_mem _)
      · exact Or.inl (b64CharOfVal_mem _)
      · exact Or.inr rfl
      · exact Or.inr rfl
  | [a, b] => by
      intro c hc
      simp only [b64EncodeBytes, List.mem_cons, List.not_mem_nil,
        or_false] at hc
      rcases hc with rfl | rfl | rfl | rfl
      · exact Or.inl (b64CharOfVal_mem _)
      · exact Or.inl (b64CharOfVal_mem _)
      · exact Or.inl (b64CharOfVal_mem _)
      · exact Or.inr rfl
  | a :: b :: c0 :: rest => by
      intro c hc
      simp only [b64EncodeBytes, List.mem_cons] at hc
      rcases hc with rfl | rfl | rfl | rfl | hmem
      · exact Or.inl (b64CharOfVal_mem _)
      · exact Or.inl (b64CharOfVal_mem _)
      · exact Or.inl (b64CharOfVal_mem _)
      · exact Or.inl (b64CharOfVal_mem _)
      · exact b64EncodeBytes_mem rest c hmem

lemma b64EncodeBytes_len : ∀ (l : List Nat),
    (b64EncodeBytes l).length % 4 = 0
  | [] => by simp [b64EncodeBytes]
  | [a] => by simp [b64EncodeBytes]
  | [a, b] => by simp [b64EncodeBytes]
  | a :: b :: c0 :: rest => by
      have ih := b64EncodeBytes_len rest
      simp only [b64EncodeBytes, List.length_cons]
      omega

/-! ## C1 -/

/-- Claim C1 counterexample: the claimed canonicalize-then-decode key derivation
matches NEITHER signing function.  `hmacBase64` of `src/utils/hmac.js`
keeps the canonicalized secret's raw UTF-8 bytes for `"QQ=="` where the
claim demands the base64 decoding; `hmacB64` of `src/server.js` treats the
base64url secret `"-A"` as raw UTF-8 (no canonicalization happens before
its alphabet test) where the claim demands decoding; and consequently the
base64url secret `"-A"` and its standard-base64 equivalent `"+A"` yield
DIFFERENT `hmacB64` key bytes, against the claim's equal-signature
consequence. -/
theorem c1_key_normalization_counterexample :
    utf8Str (canonStr "QQ==") ≠ specClaimedHmacKey "QQ==" ∧
    hmacB64Key "-A" ≠ specClaimedHmacKey "-A" ∧
    hmacB64Key "-A" ≠ hmacB64Key "+A" := by decide

/-- Claim C1 amended: `hmacBase64` (hmac.js) canonicalizes and keeps the raw
UTF-8 string key, never decoding — hence a secret and its canonicalized
standard-base64 form always produce identical signatures for every
message; `hmacB64` (server.js) base64-decodes exactly those secrets whose
RAW form already matches the standard alphabet, and falls back to raw
UTF-8 bytes otherwise, with no canonicalization — so base64url secrets
take the raw-UTF-8 path there. -/
theorem c1_amended_key_normalization :
    (∀ s msg, hmacBase64 s msg = hmacBase64 (canonStr s) msg) ∧
    (∀ s, isB64 s = true → hmacB64Key s = b64Decode s) ∧
    (∀ s, isB64 s = false → hmacB64Key s = utf8Str s) ∧
    (∀ s msg, hmacB64 s msg =
      b64EncodeStr (hmacSha256 (hmacB64Key s) (utf8Str msg))) := by
  refine ⟨?_, ?_, ?_, fun s msg => rfl⟩
  · intro s msg
    unfold hmacBase64
    rw [canonStr_idem]
  · intro s h
    simp [hmacB64Key, h]
  · intro s h
    simp [hmacB64Key, h]

/-- Claim C1 amended witness: the standard-alphabet secret is decoded, the
base64url-shaped secret is taken as raw UTF-8. -/
theorem c1_amended_key_normalization_witness :
    hmacB64Key "QQ==" = b64Decode "QQ==" ∧
    hmacB64Key "-A" = utf8Str "-A" :=
  ⟨c1_amended_key_normalization.2.1 "QQ==" (by decide),
   c1_amended_key_normalization.2.2.1 "-A" (by decide)⟩

/-! ## C4 -/

/-- Claim C4: `generateSignature` hashes exactly the separator-free
concatenation of method, path, decimal timestamp and body (empty body by
default) with HMAC-SHA256 keyed by the canonicalized secret's UTF-8
bytes; its output is standard base64 with `=` padding — length a multiple
of four, every character in the standard alphabet, no base64url
characters; `attemptTrade` signs the very body string it transmits, and
the raw order route signs `POST/order` + timestamp + the exact body
string it forwards. -/
theorem c4_signature_preimage (secret method path : String)
    (timestamp : Nat) (body : String) (store : Store) (env tsr bodyr : String)
    (addr : Option String) (up : UpResp) (upJson : Option OrderJson)
    (row : CredRow)
    (hrow : storeGet store (rowKey env (addr.getD "")) = some row) :
    (generateSignature secret method path timestamp body =
      b64EncodeStr (hmacSha256 (utf8Str (canonStr secret))
        (utf8Str (method ++ path ++ toString timestamp ++ body)))) ∧
    (generateSignature secret method path timestamp =
      generateSignature secret method path timestamp "") ∧
    (∀ c ∈ (generateSignature secret method path timestamp body).toList,
      c ∈ B64STD ∨ c = '=') ∧
    ((generateSignature secret method path timestamp body).toList.length % 4
      = 0) ∧
    ('-' ∉ (generateSignature secret method path timestamp body).toList ∧
     '_' ∉ (generateSignature secret method path timestamp body).toList) ∧
    (∀ address apiKey passphrase orderBody ts2,
      (attemptCall address apiKey secret passphrase orderBody ts2).signature
        = generateSignature secret "POST" "/order" ts2
            ((attemptCall address apiKey secret passphrase orderBody
                ts2).body)) ∧
    ((orderRoute store env tsr bodyr addr up upJson).sentPre =
        some ("POST" ++ "/order" ++ tsr ++ bodyr) ∧
     (orderRoute store env tsr bodyr addr up upJson).sentBody = some bodyr)
    := by
  have hmem : ∀ c ∈ (generateSignature secret method path timestamp
      body).toList, c ∈ B64STD ∨ c = '=' := by
    intro c hc
    exact b64EncodeBytes_mem _ c hc
  refine ⟨rfl, rfl, hmem, b64EncodeBytes_len _, ⟨?_, ?_⟩,
    fun _ _ _ _ _ => rfl, ?_⟩
  · intro hdash
    rcases hmem '-' hdash with hin | heq
    · exact absurd hin (by decide)
    · exact absurd heq (by decide)
  · intro hund
    rcases hmem '_' hund with hin | heq
    · exact absurd hin (by decide)
    · exact absurd heq (by decide)
  · simp only [orderRoute]
    rw [hrow]
    exact ⟨rfl, rfl⟩

/-- Claim C4 witness: with credentials stored, the order route signs the
preimage built from the exact body it forwards. -/
theorem c4_signature_preimage_witness :
    (orderRoute
        [(rowKey "prod" "0xAa",
          { key := "k", secret := "s", pass := "p", owner := "0xaa" })]
        "prod" "9" "orderbytes" (some "0xAa")
        { ok := true, status := 200 } none).sentPre =
      some ("POST" ++ "/order" ++ "9" ++ "orderbytes") ∧
    (orderRoute
        [(rowKey "prod" "0xAa",
          { key := "k", secret := "s", pass := "p", owner := "0xaa" })]
        "prod" "9" "orderbytes" (some "0xAa")
        { ok := true, status := 200 } none).sentBody = some "orderbytes" :=
  (c4_signature_preimage "sec" "GET" "/x" 0 ""
      [(rowKey "prod" "0xAa",
        { key := "k", secret := "s", pass := "p", owner := "0xaa" })]
      "prod" "9" "orderbytes" (some "0xAa") { ok := true, status := 200 }
      none { key := "k", secret := "s", pass := "p", owner := "0xaa" }
      (by decide)).2.2.2.2.2.2

end Relay



